import Mathlib

/-!
Shallow embedding of the parts of `webrender/src/renderer.rs` that the
verified claims refer to: the GPU cache CPU mirror (`CacheTexture` in
`PixelBuffer` mode), the render-target pool, batch submission order,
document publication, the depth-clear policy, and error reporting.
-/

namespace WR

/-- `MAX_VERTEX_TEXTURE_WIDTH` from `renderer.rs`: width in blocks of one
GPU cache row. -/
def MAX_VERTEX_TEXTURE_WIDTH : Nat := 1024

/-- `CacheRow` from `renderer.rs`: per-row dirty flag of the CPU mirror. -/
structure CacheRow where
  is_dirty : Bool
deriving DecidableEq, Repr

/-- `CacheRow::new()`. -/
def CacheRow.new : CacheRow := ⟨false⟩

/-- `GpuCacheAddress`: (u, v) texel address into the GPU cache texture. -/
structure GpuCacheAddress where
  u : Nat
  v : Nat
deriving DecidableEq, Repr

/-- A `GpuCacheUpdate::Copy` entry of an update list. -/
structure GpuCacheUpdateCopy where
  block_index : Nat
  block_count : Nat
  address : GpuCacheAddress
deriving DecidableEq, Repr

/-- `GpuCacheUpdateList`: the copy entries plus the payload block array.
The block payload type is kept abstract (`Block`); the code only moves
blocks around and compares against `GpuBlockData::EMPTY`. -/
structure GpuCacheUpdateList (Block : Type) where
  updates : List GpuCacheUpdateCopy
  blocks : List Block
deriving DecidableEq, Repr

/-- The CPU-side state of `CacheBus::PixelBuffer`: the row dirty flags and
the flat CPU mirror of the GPU blocks (`rows`, `cpu_blocks`). -/
structure PixelBufferState (Block : Type) where
  rows : List CacheRow
  cpu_blocks : List Block
deriving DecidableEq, Repr

variable {Block : Type}

/-- The `while rows.len() <= row` growth loop inside `CacheTexture::update`:
append a fresh `CacheRow` and a row's worth of `EMPTY` blocks until the
mirror has more than `row` rows. -/
def growRows (EMPTY : Block) (row : Nat) (rows : List CacheRow)
    (cpu_blocks : List Block) : List CacheRow × List Block :=
  if rows.length ≤ row then
    growRows EMPTY row (rows ++ [CacheRow.new])
      (cpu_blocks ++ List.replicate MAX_VERTEX_TEXTURE_WIDTH EMPTY)
  else
    (rows, cpu_blocks)
termination_by row + 1 - rows.length
decreasing_by simp [List.length_append]; omega

/-- The copy loop `for i in 0 .. block_count { data[i] = blocks[...] }`:
write the values `vals` into `cpu` starting at index `offset`. -/
def writeBlocks (cpu : List Block) (offset : Nat) (vals : List Block) :
    List Block :=
  match vals with
  | [] => cpu
  | v :: vs => writeBlocks (cpu.set offset v) (offset + 1) vs

/-- One `GpuCacheUpdate::Copy` step of `CacheTexture::update`: grow the
mirror, mark the row dirty, and copy `block_count` payload blocks into the
mirror at `row * MAX_VERTEX_TEXTURE_WIDTH + u`.  Returns `none` where the
Rust code would panic on an out-of-bounds slice or payload index. -/
def applyCopy (EMPTY : Block) (blocks : List Block)
    (st : PixelBufferState Block) (c : GpuCacheUpdateCopy) :
    Option (PixelBufferState Block) :=
  let row := c.address.v
  let grown := growRows EMPTY row st.rows st.cpu_blocks
  let rows := grown.1.set row ⟨true⟩
  let block_offset := row * MAX_VERTEX_TEXTURE_WIDTH + c.address.u
  if block_offset + c.block_count ≤ grown.2.length ∧
      c.block_index + c.block_count ≤ blocks.length then
    some ⟨rows,
      writeBlocks grown.2 block_offset
        ((blocks.drop c.block_index).take c.block_count)⟩
  else
    none

/-- `CacheTexture::update` in `PixelBuffer` mode: fold `applyCopy` over the
update list's copy entries. -/
def cacheUpdate (EMPTY : Block) (updates : GpuCacheUpdateList Block)
    (st : PixelBufferState Block) : Option (PixelBufferState Block) :=
  updates.updates.foldlM (fun st c => applyCopy EMPTY updates.blocks st c) st

/-- A single-row upload issued by `CacheTexture::flush`: the row index and
that row's blocks from the CPU mirror. -/
structure FlushUpload (Block : Type) where
  row_index : Nat
  data : List Block
deriving DecidableEq, Repr

/-- `CacheTexture::flush` in `PixelBuffer` mode: count the dirty rows; if
none, return 0 without uploading; otherwise upload each dirty row (one
row's worth of blocks each), clear its dirty flag, and return the dirty
count. -/
def cacheFlush (st : PixelBufferState Block) :
    PixelBufferState Block × List (FlushUpload Block) × Nat :=
  let rows_dirty := (st.rows.filter (fun r => r.is_dirty)).length
  if rows_dirty = 0 then
    (st, [], 0)
  else
    let uploads := (st.rows.enum.filter (fun p => p.2.is_dirty)).map
      (fun p => FlushUpload.mk p.1
        ((st.cpu_blocks.drop (p.1 * MAX_VERTEX_TEXTURE_WIDTH)).take
          MAX_VERTEX_TEXTURE_WIDTH))
    let rows := st.rows.map (fun r => if r.is_dirty then ⟨false⟩ else r)
    (⟨rows, st.cpu_blocks⟩, uploads, rows_dirty)

/-- A sequence of update lists applied in order (`CacheTexture::update`
called once per pending `GpuCacheUpdateList`). -/
def applyUpdateLists (EMPTY : Block) (ls : List (GpuCacheUpdateList Block))
    (st : PixelBufferState Block) : Option (PixelBufferState Block) :=
  ls.foldlM (fun st l => cacheUpdate EMPTY l st) st

/-- First block index touched by a copy entry. -/
def copyOffset (c : GpuCacheUpdateCopy) : Nat :=
  c.address.v * MAX_VERTEX_TEXTURE_WIDTH + c.address.u

/-! ### The render-target pool (`SourceTextureResolver`,
`Renderer::prepare_target_list`) -/

/-- A render-target texture as the pool logic sees it: a stable identity
(`id`, standing for the underlying device object), the fields stored in
`device::Texture` (`width`, `height`, the stored `layer_count`, read by
`get_layer_count()`), and the format.  The image-format type is kept
abstract. -/
structure TextureModel (Fmt : Type) where
  id : Nat
  width : Nat
  height : Nat
  layers : Nat
  format : Fmt
deriving DecidableEq

/-- `Texture::get_render_target_layer_count` (device.rs:202-204): in this
port the accessor is hard-coded to `0 //fbo num`, regardless of the
texture's stored `layer_count`. -/
def get_render_target_layer_count {Fmt : Type}
    (_t : TextureModel Fmt) : Nat :=
  0

/-- `TargetSelector` from `Renderer::prepare_target_list`. -/
structure TargetSelector (Fmt : Type) where
  size : Nat × Nat
  num_layers : Nat
  format : Fmt
deriving DecidableEq

/-- The selector a pooled texture answers to in `prepare_target_list`:
`get_dimensions()`, the stubbed `get_render_target_layer_count()` and
`get_format()`. -/
def textureSelector {Fmt : Type} (t : TextureModel Fmt) : TargetSelector Fmt :=
  ⟨(t.width, t.height), get_render_target_layer_count t, t.format⟩

/-- The fields of `SourceTextureResolver` that `end_pass` and
`prepare_target_list` touch. -/
structure SourceTextureResolver (Fmt : Type) where
  cache_a8_texture : Option (TextureModel Fmt)
  cache_rgba8_texture : Option (TextureModel Fmt)
  pass_a8_textures : List (Nat × Nat)
  pass_rgba8_textures : List (Nat × Nat)
  render_target_pool : List (TextureModel Fmt)

/-- `SourceTextureResolver::end_pass`: return the previous pass's cache
textures to the pool, recording their pool index against the previous
pass index, then install the new pass outputs as the next inputs. -/
def end_pass {Fmt : Type} (r : SourceTextureResolver Fmt)
    (a8_texture rgba8_texture : Option (TextureModel Fmt))
    (pass_index : Nat) : SourceTextureResolver Fmt :=
  let r := match r.cache_rgba8_texture with
    | some texture =>
      { r with
        pass_rgba8_textures := r.pass_rgba8_textures ++
          [(pass_index - 1, r.render_target_pool.length)],
        render_target_pool := r.render_target_pool ++ [texture],
        cache_rgba8_texture := none }
    | none => r
  let r := match r.cache_a8_texture with
    | some texture =>
      { r with
        pass_a8_textures := r.pass_a8_textures ++
          [(pass_index - 1, r.render_target_pool.length)],
        render_target_pool := r.render_target_pool ++ [texture],
        cache_a8_texture := none }
    | none => r
  { r with cache_rgba8_texture := rgba8_texture,
           cache_a8_texture := a8_texture }

/-- `Vec::swap_remove(i)`: remove the element at `i`, moving the last
element into its place; `none` when `i` is out of bounds (where Rust
panics). -/
def swapRemove {α : Type} (l : List α) (i : Nat) : Option (α × List α) :=
  match l[i]?, l.getLast? with
  | some x, some last => some (x, (l.set i last).dropLast)
  | _, _ => none

/-- The `RenderTargetList` state that `prepare_target_list` reads and
writes: the requested key (`max_size`, number of targets, `format`) and
the texture slot. -/
structure RenderTargetListModel (Fmt : Type) where
  max_size : Nat × Nat
  num_targets : Nat
  format : Fmt
  texture : Option (TextureModel Fmt)
deriving DecidableEq

/-- `Device::init_texture` as it affects a texture's key: it resizes the
texture to the requested dimensions and layer count. -/
def initTexture {Fmt : Type} (t : TextureModel Fmt)
    (list : RenderTargetListModel Fmt) : TextureModel Fmt :=
  { t with width := list.max_size.1, height := list.max_size.2,
           layers := list.num_targets }

/-- `Renderer::prepare_target_list` (modulo device calls): returns the new
pool, the updated list, and whether a fresh device texture was created.
With `perfect_only = true` only a texture matching the full
`(size, num_layers, format)` selector is taken from the pool and a miss
falls through; with `perfect_only = false` any texture of the right format
is reused, else a new texture is created. -/
def prepare_target_list {Fmt : Type} [DecidableEq Fmt]
    (pool : List (TextureModel Fmt)) (list : RenderTargetListModel Fmt)
    (perfect_only : Bool) (fresh_id : Nat) :
    List (TextureModel Fmt) × RenderTargetListModel Fmt × Bool :=
  if list.num_targets = 0 then (pool, list, false)
  else if perfect_only then
    let selector : TargetSelector Fmt :=
      ⟨list.max_size, list.num_targets, list.format⟩
    match pool.findIdx? (fun texture => textureSelector texture == selector) with
    | some pos =>
      match swapRemove pool pos with
      | some (texture, pool') =>
        (pool', { list with texture := some (initTexture texture list) }, false)
      | none => (pool, list, false)
    | none => (pool, list, false)
  else
    match list.texture with
    | some _ => (pool, list, false)
    | none =>
      match pool.findIdx? (fun texture => texture.format == list.format) with
      | some pos =>
        match swapRemove pool pos with
        | some (texture, pool') =>
          (pool', { list with texture := some (initTexture texture list) },
            false)
        | none => (pool, list, false)
      | none =>
        let texture := initTexture ⟨fresh_id, 0, 0, 0, list.format⟩ list
        (pool, { list with texture := some texture }, true)

/-! ### Batch submission order (`Renderer::draw_color_target`) -/

/-- `BlendMode` from the batch module as matched in `renderer.rs`.  The
color payload of `SubpixelConstantTextColor` is abstracted to a tag. -/
inductive BlendMode where
  | None
  | Alpha
  | PremultipliedAlpha
  | PremultipliedDestOut
  | SubpixelConstantTextColor (color : Nat)
  | SubpixelVariableTextColor
  | SubpixelWithBgColor
  | SubpixelDualSource
deriving DecidableEq, Repr

/-- `TransformBatchKind` as matched in `renderer.rs` (payloads abstracted
to tags). -/
inductive TransformBatchKind where
  | TextRun (glyph_format : Nat)
  | Image (image_buffer_kind : Nat)
  | YuvImage (buffer_kind format color_space : Nat)
  | AlignedGradient
  | AngleGradient
  | RadialGradient
  | BorderCorner
  | BorderEdge
deriving DecidableEq, Repr

/-- `BrushBatchKind` as matched in `renderer.rs`. -/
inductive BrushBatchKind where
  | Picture (source : Nat)
  | Solid
  | Line
deriving DecidableEq, Repr

/-- `BatchKind` as matched in `renderer.rs`; the `Composite` payload keeps
its three render-task ids. -/
inductive BatchKind where
  | Composite (task_id source_id backdrop_id : Nat)
  | HardwareComposite
  | SplitComposite
  | Blend
  | Transformable (transform_kind : Nat) (kind : TransformBatchKind)
  | Brush (kind : BrushBatchKind)
deriving DecidableEq, Repr

/-- `BatchKey`: kind, blend mode and (abstracted) texture set. -/
structure BatchKey where
  kind : BatchKind
  blend_mode : BlendMode
  textures : Nat
deriving DecidableEq, Repr

/-- A primitive batch: its key and its (abstracted) instances. -/
structure PrimitiveBatch where
  key : BatchKey
  instances : List Nat
deriving DecidableEq, Repr

/-- The blend functions selected by the `set_blend_mode_*` device calls in
`renderer.rs`. -/
inductive BlendFunc where
  | alpha
  | premultiplied_alpha
  | premultiplied_dest_out
  | subpixel_dual_source
  | subpixel_constant_text_color (color : Nat)
  | subpixel_pass0
  | subpixel_pass1
  | subpixel_with_bg_color_pass0
  | subpixel_with_bg_color_pass1
  | subpixel_with_bg_color_pass2
deriving DecidableEq, Repr

/-- The device state toggled by `draw_color_target`'s batch section. -/
structure DeviceState where
  blend : Bool
  blend_func : Option BlendFunc
  depth_test : Bool
  depth_write : Bool
deriving DecidableEq, Repr

/-- One batch submission, with the device state at its (first) draw. -/
structure SubmitRecord where
  key : BatchKey
  state : DeviceState
deriving DecidableEq, Repr

/-- Whether a batch key goes through the text-run special-case branch of
the alpha loop. -/
def isTextRunKind : BatchKind → Bool
  | BatchKind.Transformable _ (TransformBatchKind.TextRun _) => true
  | _ => false

/-- The blend function installed at a batch's first draw for a given blend
mode (the `set_blend_mode_*` call issued in `renderer.rs`); `none` for
`BlendMode::None`, where blending is simply disabled. -/
def firstDrawFunc : BlendMode → Option BlendFunc
  | BlendMode.None => none
  | BlendMode.Alpha => some BlendFunc.alpha
  | BlendMode.PremultipliedAlpha => some BlendFunc.premultiplied_alpha
  | BlendMode.PremultipliedDestOut => some BlendFunc.premultiplied_dest_out
  | BlendMode.SubpixelConstantTextColor c =>
      some (BlendFunc.subpixel_constant_text_color c)
  | BlendMode.SubpixelVariableTextColor => some BlendFunc.subpixel_pass0
  | BlendMode.SubpixelWithBgColor =>
      some BlendFunc.subpixel_with_bg_color_pass0
  | BlendMode.SubpixelDualSource => some BlendFunc.subpixel_dual_source

/-- The text-run special-case branch of the alpha loop: enable blending,
set the mode-specific blend function(s) and draw (multi-pass for the
two component-alpha modes); `none` on the branches where the code
panics (`Alpha`, `PremultipliedDestOut`, `None`).  Afterwards the caller
resets `prev_blend_mode` to `None` and disables blending. -/
def textRunDraw (st : DeviceState) (key : BatchKey) :
    Option (DeviceState × SubmitRecord) :=
  let st := { st with blend := true }
  match key.blend_mode with
  | BlendMode.Alpha => none
  | BlendMode.PremultipliedAlpha =>
    let st := { st with blend_func := some BlendFunc.premultiplied_alpha }
    some (st, ⟨key, st⟩)
  | BlendMode.SubpixelDualSource =>
    let st := { st with blend_func := some BlendFunc.subpixel_dual_source }
    some (st, ⟨key, st⟩)
  | BlendMode.SubpixelConstantTextColor c =>
    let st :=
      { st with blend_func := some (BlendFunc.subpixel_constant_text_color c) }
    some (st, ⟨key, st⟩)
  | BlendMode.SubpixelVariableTextColor =>
    let st := { st with blend_func := some BlendFunc.subpixel_pass0 }
    let rec0 : SubmitRecord := ⟨key, st⟩
    let st := { st with blend_func := some BlendFunc.subpixel_pass1 }
    some (st, rec0)
  | BlendMode.SubpixelWithBgColor =>
    let st :=
      { st with blend_func := some BlendFunc.subpixel_with_bg_color_pass0 }
    let rec0 : SubmitRecord := ⟨key, st⟩
    let st :=
      { st with blend_func := some BlendFunc.subpixel_with_bg_color_pass1 }
    let st :=
      { st with blend_func := some BlendFunc.subpixel_with_bg_color_pass2 }
    some (st, rec0)
  | BlendMode.PremultipliedDestOut => none
  | BlendMode.None => none

/-- The `if batch.key.blend_mode != prev_blend_mode { ... }` switch of the
non-text alpha branch; `none` on the `unreachable!` subpixel arms. -/
def setBlendFor (st : DeviceState) : BlendMode → Option DeviceState
  | BlendMode.None => some { st with blend := false }
  | BlendMode.Alpha =>
    some { st with blend := true, blend_func := some BlendFunc.alpha }
  | BlendMode.PremultipliedAlpha =>
    some
      { st with blend := true, blend_func := some BlendFunc.premultiplied_alpha }
  | BlendMode.PremultipliedDestOut =>
    some
      { st with blend := true, blend_func := some BlendFunc.premultiplied_dest_out }
  | BlendMode.SubpixelConstantTextColor _ => none
  | BlendMode.SubpixelVariableTextColor => none
  | BlendMode.SubpixelWithBgColor => none
  | BlendMode.SubpixelDualSource => none

/-- The alpha-batch loop of `draw_color_target`: every alpha batch in its
recorded order, threading `prev_blend_mode` and the device state;
returns the final state, the final `prev_blend_mode` and one submit
record per batch. -/
def alphaLoop (st : DeviceState) (prev : BlendMode) :
    List PrimitiveBatch →
    Option (DeviceState × BlendMode × List SubmitRecord)
  | [] => some (st, prev, [])
  | batch :: rest =>
    if isTextRunKind batch.key.kind then
      match textRunDraw st batch.key with
      | none => none
      | some (st1, rec0) =>
        let st2 := { st1 with blend := false }
        match alphaLoop st2 BlendMode.None rest with
        | none => none
        | some (st', prev', recs) => some (st', prev', rec0 :: recs)
    else
      let step : Option (DeviceState × BlendMode) :=
        if batch.key.blend_mode ≠ prev then
          match setBlendFor st batch.key.blend_mode with
          | none => none
          | some st1 => some (st1, batch.key.blend_mode)
        else some (st, prev)
      match step with
      | none => none
      | some (st1, prev1) =>
        match alphaLoop st1 prev1 rest with
        | none => none
        | some (st', prev', recs) =>
          some (st', prev', (⟨batch.key, st1⟩ : SubmitRecord) :: recs)

/-- The batch-submission section of `Renderer::draw_color_target`: nothing
is drawn when the alpha batcher is empty; otherwise blending is disabled,
then (when the target needs depth) the opaque batches are submitted in
reverse recorded order with depth test and depth write enabled and depth
write is disabled afterwards, then the alpha loop runs, and finally depth
test and blending are disabled. -/
def drawColorTargetBatches (st0 : DeviceState) (needs_depth : Bool)
    (opaqueBatches alphaBatches : List PrimitiveBatch) :
    Option (DeviceState × List SubmitRecord) :=
  if opaqueBatches.isEmpty ∧ alphaBatches.isEmpty then some (st0, [])
  else
    let st := { st0 with blend := false }
    let phase1 :=
      if needs_depth then
        let st := { st with depth_test := true, depth_write := true }
        let recs := opaqueBatches.reverse.map
          (fun b => (⟨b.key, st⟩ : SubmitRecord))
        ({ st with depth_write := false }, recs)
      else (st, ([] : List SubmitRecord))
    match alphaLoop phase1.1 BlendMode.None alphaBatches with
    | none => none
    | some (st', _, alphaRecs) =>
      some ({ st' with depth_test := false, blend := false },
        phase1.2 ++ alphaRecs)

/-- The validity of a batch's (kind, blend mode) pair that the frame
builder guarantees: text-run batches never carry `None`, `Alpha` or
`PremultipliedDestOut`, and non-text batches never carry a subpixel
mode (the `panic!`/`unreachable!` arms of the alpha loop). -/
def batchBlendValid (b : PrimitiveBatch) : Bool :=
  if isTextRunKind b.key.kind then
    match b.key.blend_mode with
    | BlendMode.None => false
    | BlendMode.Alpha => false
    | BlendMode.PremultipliedDestOut => false
    | _ => true
  else
    match b.key.blend_mode with
    | BlendMode.SubpixelConstantTextColor _ => false
    | BlendMode.SubpixelVariableTextColor => false
    | BlendMode.SubpixelWithBgColor => false
    | BlendMode.SubpixelDualSource => false
    | _ => true

/-! ### Document publication (`Renderer::update`) -/

/-- The per-document state kept in `active_documents`: the frame payload
(abstract) and whether its frame `must_be_drawn()` for texture-cache
updates. -/
structure RenderedDocument (F : Type) where
  frame : F
  must_be_drawn : Bool
deriving DecidableEq

/-- A `render_impl` call issued while processing results, recording the
framebuffer argument; `none` means no main-framebuffer drawing. -/
structure RenderCallRec where
  framebuffer_size : Option (Nat × Nat)
deriving DecidableEq, Repr

/-- The `ResultMsg::PublishDocument` arm of `Renderer::update`: if the
document id is already active, replace its pending document in place
(first issuing an off-screen-only `render_impl(None)` when the replaced
frame must be drawn); otherwise append the new document. -/
def publishDocument {F : Type} (active : List (Nat × RenderedDocument F))
    (document_id : Nat) (doc : RenderedDocument F) :
    List (Nat × RenderedDocument F) × List RenderCallRec :=
  match active.findIdx? (fun p => p.1 == document_id) with
  | some pos =>
    match active[pos]? with
    | some old =>
      let calls := if old.2.must_be_drawn then [RenderCallRec.mk none]
        else []
      (active.set pos (old.1, doc), calls)
    | none => (active, [])
  | none => (active ++ [(document_id, doc)], [])

/-- Draining the result channel (`while let Ok(msg) = try_recv`): apply
`publishDocument` to each pending `PublishDocument` message in arrival
order, accumulating any render calls issued. -/
def processPublish {F : Type} (msgs : List (Nat × RenderedDocument F))
    (active : List (Nat × RenderedDocument F)) :
    List (Nat × RenderedDocument F) × List RenderCallRec :=
  match msgs with
  | [] => (active, [])
  | m :: rest =>
    let r := publishDocument active m.1 m.2
    let rest' := processPublish rest r.1
    (rest'.1, r.2 ++ rest'.2)

/-! ### Depth-clear policy (`are_documents_intersecting_depth`,
`render_impl`, `draw_color_target`) -/

/-- `DeviceUintRect`: origin and size in device pixels. -/
structure DeviceUintRect where
  origin_x : Nat
  origin_y : Nat
  width : Nat
  height : Nat
deriving DecidableEq, Repr

/-- euclid's `TypedRect::intersects`: strict overlap on both axes. -/
def rectIntersects (a b : DeviceUintRect) : Bool :=
  (a.origin_x < b.origin_x + b.width) && (b.origin_x < a.origin_x + a.width)
    && (a.origin_y < b.origin_y + b.height)
    && (b.origin_y < a.origin_y + a.height)

/-- What the depth-intersection scan reads from an active document: the
frame's `inner_rect`, and whether the frame's last pass is a
`MainFramebuffer` pass whose target needs depth. -/
structure DocDepthInfo where
  inner_rect : DeviceUintRect
  has_main_depth : Bool
deriving DecidableEq, Repr

/-- The nested `for (i, rect) / for other in rects[i+1..]` scan of
`are_documents_intersecting_depth`. -/
def pairScan : List DeviceUintRect → Bool
  | [] => false
  | r :: rest => rest.any (fun other => rectIntersects r other) || pairScan rest

/-- `Renderer::are_documents_intersecting_depth`: collect the
main-framebuffer rects of depth-needing documents and scan all pairs for
intersection. -/
def are_documents_intersecting_depth (docs : List DocDepthInfo) : Bool :=
  let document_rects := (docs.filter (fun d => d.has_main_depth)).map
    (fun d => d.inner_rect)
  pairScan document_rects

/-- The whole-frame depth-clear value chosen in `render_impl`:
`Some(1.0)` (modelled as `some 1`) exactly when the active documents'
depth rects do not intersect, `None` otherwise. -/
def clearDepthValue (docs : List DocDepthInfo) : Option Nat :=
  if are_documents_intersecting_depth docs then none else some 1

/-- The depth-clear and scissor-rect decision at the top of
`draw_color_target` for a main-framebuffer target (`render_target =
None`): depth is cleared only when the shared depth buffer is not ready
and the target needs depth, and the clear is scissored to the document's
own (Y-flipped) target rect unless that rect covers the whole
framebuffer. -/
def mainTargetDepthClear (depth_is_ready : Bool) (needs_depth : Bool)
    (framebuffer_target_rect : DeviceUintRect) (target_size : Nat × Nat) :
    Option Nat × Option (Int × Int × Int × Int) :=
  let depth_clear := if !depth_is_ready && needs_depth then some 1 else none
  let clear_rect :=
    if framebuffer_target_rect =
        (⟨0, 0, target_size.1, target_size.2⟩ : DeviceUintRect) then
      none
    else
      some ((framebuffer_target_rect.origin_x : Int),
        (target_size.2 : Int) - (framebuffer_target_rect.origin_y : Int) -
          (framebuffer_target_rect.height : Int),
        (framebuffer_target_rect.width : Int),
        (framebuffer_target_rect.height : Int))
  (depth_clear, clear_rect)

/-! ### Error reporting (`Renderer::render` / `render_impl`) -/

/-- A `RendererError` (payload abstracted to a tag). -/
structure RendererErrorModel where
  tag : Nat
deriving DecidableEq, Repr

/-- The error plumbing of `render_impl` (`render()` delegates to it with
`Some(framebuffer_size)`): with no active documents it returns Ok
immediately; otherwise it returns Ok when the per-frame error list is
empty at the end of the frame, and `Err` with the accumulated list —
drained by `mem::replace(..., Vec::new())` — otherwise.  Returns the
result and the `renderer_errors` list after the call; stats are
abstracted to `Unit`. -/
def render_impl_errors (active_documents_empty : Bool)
    (renderer_errors : List RendererErrorModel) :
    Except (List RendererErrorModel) Unit × List RendererErrorModel :=
  if active_documents_empty then (Except.ok (), renderer_errors)
  else if renderer_errors.isEmpty then (Except.ok (), renderer_errors)
  else (Except.error renderer_errors, [])

/-! ### Empty-frame short-circuit (`Renderer::draw_tile_frame`) -/

/-- A coarse-grained GPU work item issued by `draw_tile_frame`. -/
inductive GpuWork where
  | device_setup
  | bind_frame_data
  | draw_pass (index : Nat)
deriving DecidableEq, Repr

/-- The `Frame` fields `draw_tile_frame` touches: the pass list (each
pass abstracted to a tag) and the `has_been_rendered` flag. -/
structure FrameModel where
  passes : List Nat
  has_been_rendered : Bool
deriving DecidableEq, Repr

/-- `Renderer::draw_tile_frame`: with an empty pass list the frame is
immediately marked rendered and the function returns without issuing any
GPU work; otherwise the device is set up, the frame data is bound, every
pass is drawn in order, and the frame is marked rendered at the end. -/
def draw_tile_frame (frame : FrameModel) : FrameModel × List GpuWork :=
  if frame.passes.isEmpty then
    ({ frame with has_been_rendered := true }, [])
  else
    ({ frame with has_been_rendered := true },
      [GpuWork.device_setup, GpuWork.bind_frame_data] ++
        (List.range frame.passes.length).map GpuWork.draw_pass)

/-! ### Composite-batch instance assertion (`Renderer::submit_batch`) -/

/-- The `debug_assert_eq!(instances.len(), 1)` guard in
`Renderer::submit_batch`: a composite batch must carry exactly one
instance (composites may overlap and affect each other, so they are never
grouped); every other batch kind passes unconditionally.  `false` means
the assertion fires (a panic, not a recoverable error). -/
def submit_batch_composite_guard (kind : BatchKind)
    (instances : List Nat) : Bool :=
  match kind with
  | BatchKind.Composite _ _ _ => instances.length == 1
  | _ => true

/-! ### Lemmas about the GPU cache mirror -/

theorem growRows_eq (EMPTY : Block) (row : Nat) (rows : List CacheRow)
    (cpu : List Block) :
    growRows EMPTY row rows cpu =
      (rows ++ List.replicate (row + 1 - rows.length) CacheRow.new,
        cpu ++ List.replicate
          ((row + 1 - rows.length) * MAX_VERTEX_TEXTURE_WIDTH) EMPTY) := by
  generalize hm : row + 1 - rows.length = m
  induction m generalizing rows cpu with
  | zero =>
    have h : ¬ rows.length ≤ row := by omega
    rw [growRows]
    simp [h]
  | succ n ih =>
    have h : rows.length ≤ row := by omega
    rw [growRows]
    simp only [h, if_true]
    rw [ih _ _ (by simp; omega)]
    refine Prod.ext ?_ ?_
    · simp [List.append_assoc, List.replicate_succ]
    · simp only [List.append_assoc]
      rw [← List.replicate_add]
      have : MAX_VERTEX_TEXTURE_WIDTH + n * MAX_VERTEX_TEXTURE_WIDTH =
          (n + 1) * MAX_VERTEX_TEXTURE_WIDTH := by ring
      rw [this]

theorem writeBlocks_length (cpu : List Block) (offset : Nat)
    (vals : List Block) :
    (writeBlocks cpu offset vals).length = cpu.length := by
  induction vals generalizing cpu offset with
  | nil => rfl
  | cons v vs ih => rw [writeBlocks, ih]; simp

theorem writeBlocks_getD_outside (cpu : List Block) (offset : Nat)
    (vals : List Block) (d : Block) (i : Nat)
    (h : i < offset ∨ offset + vals.length ≤ i) :
    (writeBlocks cpu offset vals).getD i d = cpu.getD i d := by
  induction vals generalizing cpu offset with
  | nil => rfl
  | cons v vs ih =>
    rw [writeBlocks, ih _ _ (by simp at h ⊢; omega)]
    have hne : i ≠ offset := by simp at h; omega
    simp [List.getD, List.getElem?_set_ne (Ne.symm hne)]

theorem getD_append_replicate_self (l : List Block) (k i : Nat) (a : Block) :
    (l ++ List.replicate k a).getD i a = l.getD i a := by
  by_cases hi : i < l.length
  · simp [List.getD, List.getElem?_append_left hi]
  · push_neg at hi
    rw [List.getD_eq_default _ _ hi]
    by_cases hik : i - l.length < k
    · simp [List.getD, List.getElem?_append_right hi,
        List.getElem?_replicate, hik]
    · simp [List.getD, List.getElem?_append_right hi,
        List.getElem?_replicate, hik]

theorem getD_set_ne {α : Type} (l : List α) (j : Nat) (a : α) (i : Nat)
    (d : α) (h : i ≠ j) : (l.set j a).getD i d = l.getD i d := by
  simp [List.getD, List.getElem?_set_ne (Ne.symm h)]

theorem applyCopy_some_eq {EMPTY : Block} {blocks : List Block}
    {st st' : PixelBufferState Block} {c : GpuCacheUpdateCopy}
    (h : applyCopy EMPTY blocks st c = some st') :
    st'.rows = (st.rows ++ List.replicate (c.address.v + 1 - st.rows.length)
        CacheRow.new).set c.address.v ⟨true⟩ ∧
    st'.cpu_blocks = writeBlocks
      (st.cpu_blocks ++ List.replicate
        ((c.address.v + 1 - st.rows.length) * MAX_VERTEX_TEXTURE_WIDTH) EMPTY)
      (copyOffset c) ((blocks.drop c.block_index).take c.block_count) := by
  simp only [applyCopy, growRows_eq] at h
  split at h
  · simp only [Option.some.injEq] at h
    subst h
    exact ⟨rfl, rfl⟩
  · simp at h

theorem applyCopy_getD_outside {EMPTY : Block} {blocks : List Block}
    {st st' : PixelBufferState Block} {c : GpuCacheUpdateCopy}
    (h : applyCopy EMPTY blocks st c = some st') (i : Nat)
    (hi : i < copyOffset c ∨ copyOffset c + c.block_count ≤ i) :
    st'.cpu_blocks.getD i EMPTY = st.cpu_blocks.getD i EMPTY := by
  obtain ⟨-, hcpu⟩ := applyCopy_some_eq h
  have hlen : ((blocks.drop c.block_index).take c.block_count).length ≤
      c.block_count := by
    rw [List.length_take]; exact Nat.min_le_left _ _
  have hside : i < copyOffset c ∨
      copyOffset c + ((blocks.drop c.block_index).take c.block_count).length
        ≤ i := by
    rcases hi with h1 | h2
    · exact Or.inl h1
    · exact Or.inr (by omega)
  rw [hcpu, writeBlocks_getD_outside _ _ _ _ _ hside,
    getD_append_replicate_self]

theorem applyCopy_rows_getD_ne {EMPTY : Block} {blocks : List Block}
    {st st' : PixelBufferState Block} {c : GpuCacheUpdateCopy}
    (h : applyCopy EMPTY blocks st c = some st') (r : Nat)
    (hr : c.address.v ≠ r) :
    st'.rows.getD r CacheRow.new = st.rows.getD r CacheRow.new := by
  obtain ⟨hrows, -⟩ := applyCopy_some_eq h
  rw [hrows, getD_set_ne _ _ _ _ _ (Ne.symm hr),
    getD_append_replicate_self]

theorem applyCopy_rows_length_mono {EMPTY : Block} {blocks : List Block}
    {st st' : PixelBufferState Block} {c : GpuCacheUpdateCopy}
    (h : applyCopy EMPTY blocks st c = some st') :
    st.rows.length ≤ st'.rows.length := by
  obtain ⟨hrows, -⟩ := applyCopy_some_eq h
  rw [hrows]
  simp

theorem foldlM_option_rel {α σ : Type _} (f : σ → α → Option σ)
    (P : σ → σ → Prop) (hrefl : ∀ s, P s s)
    (htrans : ∀ a b c, P a b → P b c → P a c)
    (hstep : ∀ s a s', f s a = some s' → P s s') :
    ∀ (l : List α) (s s' : σ), l.foldlM f s = some s' → P s s' := by
  intro l
  induction l with
  | nil =>
    intro s s' h
    simp only [List.foldlM_nil] at h
    cases h
    exact hrefl s
  | cons a l ih =>
    intro s s' h
    rw [List.foldlM_cons] at h
    cases hf : f s a with
    | none => rw [hf] at h; simp at h
    | some s1 =>
      rw [hf] at h
      simp only [Option.pure_def, Option.bind_eq_bind, Option.some_bind] at h
      exact htrans _ _ _ (hstep s a s1 hf) (ih s1 s' h)

theorem foldCopies_getD_outside (EMPTY : Block) (blocks : List Block) :
    ∀ (cs : List GpuCacheUpdateCopy) (st st' : PixelBufferState Block),
      cs.foldlM (fun st c => applyCopy EMPTY blocks st c) st = some st' →
      ∀ i, (∀ c ∈ cs, i < copyOffset c ∨ copyOffset c + c.block_count ≤ i) →
      st'.cpu_blocks.getD i EMPTY = st.cpu_blocks.getD i EMPTY := by
  intro cs
  induction cs with
  | nil =>
    intro st st' h i hi
    simp only [List.foldlM_nil] at h
    cases h
    rfl
  | cons c cs ih =>
    intro st st' h i hi
    rw [List.foldlM_cons] at h
    cases hf : applyCopy EMPTY blocks st c with
    | none => rw [hf] at h; simp at h
    | some s1 =>
      rw [hf] at h
      simp only [Option.pure_def, Option.bind_eq_bind, Option.some_bind] at h
      rw [ih s1 st' h i (fun c hc => hi c (List.mem_cons_of_mem _ hc))]
      exact applyCopy_getD_outside hf i (hi c (List.mem_cons_self _ _))

theorem foldCopies_rows_getD_ne (EMPTY : Block) (blocks : List Block) :
    ∀ (cs : List GpuCacheUpdateCopy) (st st' : PixelBufferState Block),
      cs.foldlM (fun st c => applyCopy EMPTY blocks st c) st = some st' →
      ∀ r, (∀ c ∈ cs, c.address.v ≠ r) →
      st'.rows.getD r CacheRow.new = st.rows.getD r CacheRow.new := by
  intro cs
  induction cs with
  | nil =>
    intro st st' h r hr
    simp only [List.foldlM_nil] at h
    cases h
    rfl
  | cons c cs ih =>
    intro st st' h r hr
    rw [List.foldlM_cons] at h
    cases hf : applyCopy EMPTY blocks st c with
    | none => rw [hf] at h; simp at h
    | some s1 =>
      rw [hf] at h
      simp only [Option.pure_def, Option.bind_eq_bind, Option.some_bind] at h
      rw [ih s1 st' h r (fun c hc => hr c (List.mem_cons_of_mem _ hc))]
      exact applyCopy_rows_getD_ne hf r (hr c (List.mem_cons_self _ _))

/-- C1: in `PixelBuffer` mode, applying a single update list with one
`Copy` entry (`address.v = 5`, `block_index = 0`, `block_count = 4`) to an
initially empty cache grows the CPU mirror to exactly 6 rows, marks row 5
dirty, leaves rows 0–4 non-dirty with every block equal to `EMPTY`, and a
subsequent `flush` uploads exactly one row's worth of data and returns 1. -/
theorem gpu_cache_growth_scenario {Block : Type} (EMPTY : Block)
    (bl : List Block) (u : Nat) (hu : u + 4 ≤ MAX_VERTEX_TEXTURE_WIDTH)
    (hb : 4 ≤ bl.length) :
    ∃ st' : PixelBufferState Block,
      cacheUpdate EMPTY ⟨[⟨0, 4, ⟨u, 5⟩⟩], bl⟩ ⟨[], []⟩ = some st' ∧
      st'.rows.length = 6 ∧
      (st'.rows.getD 5 CacheRow.new).is_dirty = true ∧
      (∀ r, r < 5 → (st'.rows.getD r CacheRow.new).is_dirty = false) ∧
      (∀ i, i < 5 * MAX_VERTEX_TEXTURE_WIDTH →
        st'.cpu_blocks.getD i EMPTY = EMPTY) ∧
      (cacheFlush st').2.1.length = 1 ∧
      (∀ up ∈ (cacheFlush st').2.1,
        up.row_index = 5 ∧ up.data.length = MAX_VERTEX_TEXTURE_WIDTH) ∧
      (cacheFlush st').2.2 = 1 := by
  have hac : applyCopy EMPTY bl ⟨[], []⟩ ⟨0, 4, ⟨u, 5⟩⟩ =
      some ⟨(List.replicate 6 CacheRow.new).set 5 ⟨true⟩,
        writeBlocks (List.replicate (6 * MAX_VERTEX_TEXTURE_WIDTH) EMPTY)
          (5 * MAX_VERTEX_TEXTURE_WIDTH + u) ((bl.drop 0).take 4)⟩ := by
    simp only [applyCopy, growRows_eq]
    rw [if_pos]
    · norm_num
    · refine ⟨?_, by simpa using hb⟩
      simp only [List.nil_append, List.length_replicate, List.length_nil]
      simp only [MAX_VERTEX_TEXTURE_WIDTH] at hu ⊢
      omega
  have hupd : cacheUpdate EMPTY ⟨[⟨0, 4, ⟨u, 5⟩⟩], bl⟩ ⟨[], []⟩ =
      some ⟨(List.replicate 6 CacheRow.new).set 5 ⟨true⟩,
        writeBlocks (List.replicate (6 * MAX_VERTEX_TEXTURE_WIDTH) EMPTY)
          (5 * MAX_VERTEX_TEXTURE_WIDTH + u) ((bl.drop 0).take 4)⟩ := by
    simp only [cacheUpdate, List.foldlM_cons, List.foldlM_nil]
    rw [hac]
    simp [Option.pure_def, Option.bind_eq_bind, Option.some_bind]
  refine ⟨_, hupd, ?_, ?_, ?_, ?_, ?_, ?_, ?_⟩
  · show ((List.replicate 6 CacheRow.new).set 5 ⟨true⟩).length = 6
    decide
  · show (((List.replicate 6 CacheRow.new).set 5 ⟨true⟩).getD 5
      CacheRow.new).is_dirty = true
    decide
  · show ∀ r, r < 5 → (((List.replicate 6 CacheRow.new).set 5 ⟨true⟩).getD r
      CacheRow.new).is_dirty = false
    decide
  · intro i hi
    show (writeBlocks (List.replicate (6 * MAX_VERTEX_TEXTURE_WIDTH) EMPTY)
      (5 * MAX_VERTEX_TEXTURE_WIDTH + u) ((bl.drop 0).take 4)).getD i EMPTY
      = EMPTY
    rw [writeBlocks_getD_outside _ _ _ _ _ (Or.inl (by omega))]
    have h0 := getD_append_replicate_self ([] : List Block)
      (6 * MAX_VERTEX_TEXTURE_WIDTH) i EMPTY
    simp only [List.nil_append] at h0
    simp [h0]
  · simp only [cacheFlush]
    rw [if_neg (by decide)]
    simp only [List.length_map]
    decide
  · simp only [cacheFlush]
    rw [if_neg (by decide)]
    intro up hup
    have henum : (((List.replicate 6 CacheRow.new).set 5
        (⟨true⟩ : CacheRow)).enum.filter (fun p => p.2.is_dirty)) =
        [(5, ⟨true⟩)] := by decide
    rw [henum] at hup
    simp only [List.map_cons, List.map_nil, List.mem_singleton] at hup
    subst hup
    refine ⟨rfl, ?_⟩
    simp only [List.length_take, List.length_drop, writeBlocks_length,
      List.length_replicate]
    simp only [MAX_VERTEX_TEXTURE_WIDTH]
    omega
  · simp only [cacheFlush]
    rw [if_neg (by decide)]
    show (((List.replicate 6 CacheRow.new).set 5 ⟨true⟩).filter
      (fun r => r.is_dirty)).length = 1
    decide

/-- C1 witness: the scenario instantiated with `Block := Nat`,
`EMPTY := 0`, payload `[1, 2, 3, 4]` and `u = 0`. -/
theorem gpu_cache_growth_scenario_witness :
    (0 : Nat) + 4 ≤ MAX_VERTEX_TEXTURE_WIDTH ∧
    4 ≤ ([1, 2, 3, 4] : List Nat).length ∧
    ∃ st' : PixelBufferState Nat,
      cacheUpdate 0 ⟨[⟨0, 4, ⟨0, 5⟩⟩], [1, 2, 3, 4]⟩ ⟨[], []⟩ = some st' ∧
      st'.rows.length = 6 ∧
      (st'.rows.getD 5 CacheRow.new).is_dirty = true ∧
      (∀ r, r < 5 → (st'.rows.getD r CacheRow.new).is_dirty = false) ∧
      (∀ i, i < 5 * MAX_VERTEX_TEXTURE_WIDTH →
        st'.cpu_blocks.getD i 0 = 0) ∧
      (cacheFlush st').2.1.length = 1 ∧
      (∀ up ∈ (cacheFlush st').2.1,
        up.row_index = 5 ∧ up.data.length = MAX_VERTEX_TEXTURE_WIDTH) ∧
      (cacheFlush st').2.2 = 1 :=
  ⟨by decide, by decide,
    gpu_cache_growth_scenario 0 [1, 2, 3, 4] 0 (by decide) (by decide)⟩

/-- C2: across any sequence of update lists applied in `PixelBuffer` mode
the CPU-mirror row count is non-decreasing (each `update` call only
appends rows, never removes them), and immediately after any `flush` call
every row's `is_dirty` flag is false. -/
theorem gpu_cache_rows_monotone_flush_clean {Block : Type} (EMPTY : Block)
    (ls : List (GpuCacheUpdateList Block)) (st st' : PixelBufferState Block)
    (h : applyUpdateLists EMPTY ls st = some st') :
    st.rows.length ≤ st'.rows.length ∧
    (∀ (upd : GpuCacheUpdateList Block) (s s' : PixelBufferState Block),
      cacheUpdate EMPTY upd s = some s' → s.rows.length ≤ s'.rows.length) ∧
    (∀ s : PixelBufferState Block, ∀ r ∈ (cacheFlush s).1.rows,
      r.is_dirty = false) := by
  have hmono : ∀ (upd : GpuCacheUpdateList Block)
      (s s' : PixelBufferState Block),
      cacheUpdate EMPTY upd s = some s' → s.rows.length ≤ s'.rows.length := by
    intro upd s s' hu
    simp only [cacheUpdate] at hu
    exact foldlM_option_rel (fun st c => applyCopy EMPTY upd.blocks st c)
      (fun a b => a.rows.length ≤ b.rows.length)
      (fun s => le_refl _) (fun a b c h1 h2 => le_trans h1 h2)
      (fun s a s' hs => applyCopy_rows_length_mono hs) upd.updates s s' hu
  refine ⟨?_, hmono, ?_⟩
  · simp only [applyUpdateLists] at h
    exact foldlM_option_rel (fun st l => cacheUpdate EMPTY l st)
      (fun a b => a.rows.length ≤ b.rows.length)
      (fun s => le_refl _) (fun a b c h1 h2 => le_trans h1 h2)
      (fun s a s' hs => hmono a s s' hs) ls st st' h
  · intro s r hr
    simp only [cacheFlush] at hr
    split at hr
    · next hzero =>
      have hnil : s.rows.filter (fun r => r.is_dirty) = [] :=
        List.length_eq_zero.mp hzero
      simp only at hr
      have := (List.filter_eq_nil_iff.mp hnil) r hr
      simpa using this
    · simp only [List.mem_map] at hr
      obtain ⟨a, _, rfl⟩ := hr
      by_cases hd : a.is_dirty = true
      · simp [hd]
      · simp only [hd, if_false]
        simpa using hd

/-- C2 witness: the empty sequence applied to the empty cache state over
`Block := Nat`. -/
theorem gpu_cache_rows_monotone_flush_clean_witness :
    applyUpdateLists (0 : Nat) [] ⟨[], []⟩ = some ⟨[], []⟩ ∧
    ((⟨[], []⟩ : PixelBufferState Nat).rows.length ≤
        (⟨[], []⟩ : PixelBufferState Nat).rows.length ∧
      (∀ (upd : GpuCacheUpdateList Nat) (s s' : PixelBufferState Nat),
        cacheUpdate 0 upd s = some s' → s.rows.length ≤ s'.rows.length) ∧
      (∀ s : PixelBufferState Nat, ∀ r ∈ (cacheFlush s).1.rows,
        r.is_dirty = false)) :=
  ⟨rfl, gpu_cache_rows_monotone_flush_clean 0 [] ⟨[], []⟩ ⟨[], []⟩ rfl⟩

/-- C10: `CacheTexture::update` only writes the blocks inside the
half-open ranges `[v * 1024 + u, v * 1024 + u + block_count)` named by its
`Copy` entries: every other pre-existing block keeps its value, appended
blocks outside the ranges are `EMPTY`, and the dirty flag of every row not
addressed by some entry is unchanged. -/
theorem gpu_cache_update_only_named_ranges {Block : Type} (EMPTY : Block)
    (upd : GpuCacheUpdateList Block) (st st' : PixelBufferState Block)
    (h : cacheUpdate EMPTY upd st = some st') :
    (∀ i, (∀ c ∈ upd.updates,
        i < copyOffset c ∨ copyOffset c + c.block_count ≤ i) →
      st'.cpu_blocks.getD i EMPTY = st.cpu_blocks.getD i EMPTY) ∧
    (∀ i, st.cpu_blocks.length ≤ i →
      (∀ c ∈ upd.updates,
        i < copyOffset c ∨ copyOffset c + c.block_count ≤ i) →
      st'.cpu_blocks.getD i EMPTY = EMPTY) ∧
    (∀ r, (∀ c ∈ upd.updates, c.address.v ≠ r) →
      (st'.rows.getD r CacheRow.new).is_dirty =
        (st.rows.getD r CacheRow.new).is_dirty) := by
  simp only [cacheUpdate] at h
  refine ⟨fun i hi =>
      foldCopies_getD_outside EMPTY upd.blocks upd.updates st st' h i hi,
    fun i hlen hi => ?_,
    fun r hr => by
      rw [foldCopies_rows_getD_ne EMPTY upd.blocks upd.updates st st' h r hr]⟩
  rw [foldCopies_getD_outside EMPTY upd.blocks upd.updates st st' h i hi]
  exact List.getD_eq_default _ _ hlen

/-- C10 witness: an update list with no copy entries over `Block := Nat`
leaves the state untouched. -/
theorem gpu_cache_update_only_named_ranges_witness :
    cacheUpdate (0 : Nat) ⟨[], [5]⟩ ⟨[⟨true⟩], [9]⟩ = some ⟨[⟨true⟩], [9]⟩ ∧
    ((∀ i, (∀ c ∈ (⟨[], [5]⟩ : GpuCacheUpdateList Nat).updates,
        i < copyOffset c ∨ copyOffset c + c.block_count ≤ i) →
      (⟨[⟨true⟩], [9]⟩ : PixelBufferState Nat).cpu_blocks.getD i 0 =
        (⟨[⟨true⟩], [9]⟩ : PixelBufferState Nat).cpu_blocks.getD i 0) ∧
    (∀ i, (⟨[⟨true⟩], [9]⟩ : PixelBufferState Nat).cpu_blocks.length ≤ i →
      (∀ c ∈ (⟨[], [5]⟩ : GpuCacheUpdateList Nat).updates,
        i < copyOffset c ∨ copyOffset c + c.block_count ≤ i) →
      (⟨[⟨true⟩], [9]⟩ : PixelBufferState Nat).cpu_blocks.getD i 0 = 0) ∧
    (∀ r, (∀ c ∈ (⟨[], [5]⟩ : GpuCacheUpdateList Nat).updates,
        c.address.v ≠ r) →
      ((⟨[⟨true⟩], [9]⟩ : PixelBufferState Nat).rows.getD r
        CacheRow.new).is_dirty =
      ((⟨[⟨true⟩], [9]⟩ : PixelBufferState Nat).rows.getD r
        CacheRow.new).is_dirty)) :=
  ⟨rfl, gpu_cache_update_only_named_ranges 0 ⟨[], [5]⟩ ⟨[⟨true⟩], [9]⟩
    ⟨[⟨true⟩], [9]⟩ rfl⟩

/-! ### Lemmas about the render-target pool -/

theorem findIdx?_some_pred {α : Type} (p : α → Bool) :
    ∀ (l : List α) (i j : Nat), List.findIdx? p l i = some j →
      i ≤ j ∧ ∃ x, l[j - i]? = some x ∧ p x = true := by
  intro l
  induction l with
  | nil => intro i j h; simp [List.findIdx?] at h
  | cons a l ih =>
    intro i j h
    rw [List.findIdx?_cons] at h
    by_cases ha : p a = true
    · rw [if_pos ha] at h
      simp only [Option.some.injEq] at h
      subst h
      exact ⟨le_refl _, a, by simp, ha⟩
    · rw [if_neg ha] at h
      obtain ⟨hij, x, hx, hpx⟩ := ih (i + 1) j h
      refine ⟨by omega, x, ?_, hpx⟩
      have hj : j - i = (j - (i + 1)) + 1 := by omega
      rw [hj, List.getElem?_cons_succ]
      exact hx

/-! ### Lemmas about the batch loops -/

theorem textRunDraw_spec (st : DeviceState) (key : BatchKey)
    (h0 : key.blend_mode ≠ BlendMode.None)
    (h1 : key.blend_mode ≠ BlendMode.Alpha)
    (h2 : key.blend_mode ≠ BlendMode.PremultipliedDestOut) :
    ∃ st1 sr, textRunDraw st key = some (st1, sr) ∧
      st1.depth_test = st.depth_test ∧ st1.depth_write = st.depth_write ∧
      sr.key = key ∧ sr.state.depth_test = st.depth_test ∧
      sr.state.depth_write = st.depth_write ∧ sr.state.blend = true ∧
      sr.state.blend_func = firstDrawFunc key.blend_mode := by
  cases hbm : key.blend_mode with
  | None => exact absurd hbm h0
  | Alpha => exact absurd hbm h1
  | PremultipliedDestOut => exact absurd hbm h2
  | PremultipliedAlpha =>
    simp only [textRunDraw, hbm, firstDrawFunc]
    exact ⟨_, _, rfl, rfl, rfl, rfl, rfl, rfl, rfl, rfl⟩
  | SubpixelConstantTextColor c =>
    simp only [textRunDraw, hbm, firstDrawFunc]
    exact ⟨_, _, rfl, rfl, rfl, rfl, rfl, rfl, rfl, rfl⟩
  | SubpixelVariableTextColor =>
    simp only [textRunDraw, hbm, firstDrawFunc]
    exact ⟨_, _, rfl, rfl, rfl, rfl, rfl, rfl, rfl, rfl⟩
  | SubpixelWithBgColor =>
    simp only [textRunDraw, hbm, firstDrawFunc]
    exact ⟨_, _, rfl, rfl, rfl, rfl, rfl, rfl, rfl, rfl⟩
  | SubpixelDualSource =>
    simp only [textRunDraw, hbm, firstDrawFunc]
    exact ⟨_, _, rfl, rfl, rfl, rfl, rfl, rfl, rfl, rfl⟩

theorem alphaLoop_spec :
    ∀ (batches : List PrimitiveBatch) (st : DeviceState) (prev : BlendMode),
      (∀ b ∈ batches, batchBlendValid b = true) →
      (prev = BlendMode.None → st.blend = false) →
      (prev ≠ BlendMode.None → st.blend = true ∧
        st.blend_func = firstDrawFunc prev) →
      ∃ st' prev' recs,
        alphaLoop st prev batches = some (st', prev', recs) ∧
        st'.depth_test = st.depth_test ∧
        st'.depth_write = st.depth_write ∧
        List.Forall₂ (fun (sr : SubmitRecord) (b : PrimitiveBatch) =>
          sr.key = b.key ∧
          sr.state.depth_test = st.depth_test ∧
          sr.state.depth_write = st.depth_write ∧
          (sr.state.blend = true ↔ b.key.blend_mode ≠ BlendMode.None) ∧
          (b.key.blend_mode ≠ BlendMode.None →
            sr.state.blend_func = firstDrawFunc b.key.blend_mode))
          recs batches := by
  intro batches
  induction batches with
  | nil =>
    intro st prev hvalid h1 h2
    exact ⟨st, prev, [], rfl, rfl, rfl, List.Forall₂.nil⟩
  | cons b rest ih =>
    intro st prev hvalid h1 h2
    have hv := hvalid b (List.mem_cons_self _ _)
    have hvrest := fun x hx => hvalid x (List.mem_cons_of_mem _ hx)
    by_cases htext : isTextRunKind b.key.kind = true
    · -- text-run special case
      have hmode : b.key.blend_mode ≠ BlendMode.None ∧
          b.key.blend_mode ≠ BlendMode.Alpha ∧
          b.key.blend_mode ≠ BlendMode.PremultipliedDestOut := by
        refine ⟨?_, ?_, ?_⟩ <;> intro hbm <;>
          simp [batchBlendValid, htext, hbm] at hv
      obtain ⟨st1, sr, hdraw, hdt, hdw, hkey, hrdt, hrdw, hrb, hrf⟩ :=
        textRunDraw_spec st b.key hmode.1 hmode.2.1 hmode.2.2
      obtain ⟨st', prev', recs, hloop, hdt', hdw', hfa⟩ :=
        ih { st1 with blend := false } BlendMode.None hvrest
          (fun _ => rfl) (fun hc => absurd rfl hc)
      refine ⟨st', prev', sr :: recs, ?_, ?_, ?_, ?_⟩
      · simp only [alphaLoop, htext, if_true, hdraw, hloop]
      · rw [hdt']; exact hdt
      · rw [hdw']; exact hdw
      · refine List.Forall₂.cons ⟨hkey, hrdt, hrdw, ?_, fun _ => hrf⟩ ?_
        · simp [hrb, hmode.1]
        · refine hfa.imp ?_
          intro sr2 b2 hp
          obtain ⟨hk2, ha2, hb2, hc2, hd2⟩ := hp
          exact ⟨hk2, by rw [ha2]; exact hdt, by rw [hb2]; exact hdw,
            hc2, hd2⟩
    · -- ordinary batch
      have hsub : ∀ c, b.key.blend_mode =
            BlendMode.SubpixelConstantTextColor c → False := by
        intro c hbm
        simp [batchBlendValid, htext, hbm] at hv
      have hstep : ∃ st1,
          (if b.key.blend_mode ≠ prev then
            match setBlendFor st b.key.blend_mode with
            | none => none
            | some st1 => some (st1, b.key.blend_mode)
          else some (st, prev)) = some (st1, b.key.blend_mode) ∧
          st1.depth_test = st.depth_test ∧
          st1.depth_write = st.depth_write ∧
          (st1.blend = true ↔ b.key.blend_mode ≠ BlendMode.None) ∧
          (b.key.blend_mode ≠ BlendMode.None →
            st1.blend_func = firstDrawFunc b.key.blend_mode) := by
        by_cases heq : b.key.blend_mode = prev
        · rw [if_neg (by simpa using heq)]
          refine ⟨st, by rw [heq], rfl, rfl, ?_, ?_⟩
          · by_cases hN : b.key.blend_mode = BlendMode.None
            · simp [hN, h1 (heq ▸ hN)]
            · have := h2 (by rw [← heq]; exact hN)
              simp [this.1, hN]
          · intro hN
            exact (h2 (by rw [← heq]; exact hN)).2.symm ▸ (by rw [heq])
        · rw [if_pos (by simpa using heq)]
          cases hbm : b.key.blend_mode with
          | None =>
            refine ⟨{ st with blend := false }, by simp [setBlendFor, hbm],
              rfl, rfl, by simp [hbm], ?_⟩
            intro hc
            exact absurd rfl hc
          | Alpha =>
            refine ⟨{ st with blend := true, blend_func := some BlendFunc.alpha }, by simp [setBlendFor, hbm], rfl, rfl, by simp [hbm], ?_⟩
            intro _
            simp [firstDrawFunc, hbm]
          | PremultipliedAlpha =>
            refine ⟨{ st with blend := true, blend_func := some BlendFunc.premultiplied_alpha }, by simp [setBlendFor, hbm], rfl, rfl, by simp [hbm], ?_⟩
            intro _
            simp [firstDrawFunc, hbm]
          | PremultipliedDestOut =>
            refine ⟨{ st with blend := true, blend_func := some BlendFunc.premultiplied_dest_out }, by simp [setBlendFor, hbm], rfl, rfl, by simp [hbm], ?_⟩
            intro _
            simp [firstDrawFunc, hbm]
          | SubpixelConstantTextColor c => exact absurd hbm (by
              intro h; exact hsub c h)
          | SubpixelVariableTextColor =>
            exfalso; simp [batchBlendValid, htext, hbm] at hv
          | SubpixelWithBgColor =>
            exfalso; simp [batchBlendValid, htext, hbm] at hv
          | SubpixelDualSource =>
            exfalso; simp [batchBlendValid, htext, hbm] at hv
      obtain ⟨st1, hstep, hdt1, hdw1, hb1, hf1⟩ := hstep
      obtain ⟨st', prev', recs, hloop, hdt', hdw', hfa⟩ :=
        ih st1 b.key.blend_mode hvrest
          (fun hN => by
            have := hb1
            rw [hN] at this
            simpa using (fun hc => hc rfl) ∘ this.mp)
          (fun hN => ⟨hb1.mpr hN, hf1 hN⟩)
      refine ⟨st', prev', (⟨b.key, st1⟩ : SubmitRecord) :: recs, ?_, ?_,
        ?_, ?_⟩
      · simp only [alphaLoop, htext, if_false, Bool.false_eq_true, hstep,
          hloop]
      · rw [hdt']; exact hdt1
      · rw [hdw']; exact hdw1
      · refine List.Forall₂.cons ⟨rfl, hdt1, hdw1, hb1, hf1⟩ ?_
        refine hfa.imp ?_
        intro sr2 b2 hp
        obtain ⟨hk2, ha2, hb2, hc2, hd2⟩ := hp
        exact ⟨hk2, by rw [ha2]; exact hdt1, by rw [hb2]; exact hdw1,
          hc2, hd2⟩

/-- C4: when a color render target that needs depth is drawn, the opaque
batch list is submitted in reverse recorded order (front-to-back) with
depth test and depth write enabled, depth write is disabled afterwards,
and then every alpha batch is submitted in its recorded order with depth
write off and the batch's own blend mode in effect at its draw. -/
theorem color_target_batch_submission_order (st0 : DeviceState)
    (opaqueBatches alphaBatches : List PrimitiveBatch)
    (hvalid : ∀ b ∈ alphaBatches, batchBlendValid b = true)
    (hne : ¬(opaqueBatches.isEmpty ∧ alphaBatches.isEmpty)) :
    ∃ st' alphaRecs,
      drawColorTargetBatches st0 true opaqueBatches alphaBatches =
        some (st', opaqueBatches.reverse.map
          (fun b => (⟨b.key, { st0 with blend := false, depth_test := true, depth_write := true }⟩ : SubmitRecord)) ++ alphaRecs) ∧
      List.Forall₂ (fun (sr : SubmitRecord) (b : PrimitiveBatch) =>
        sr.key = b.key ∧
        sr.state.depth_test = true ∧
        sr.state.depth_write = false ∧
        (sr.state.blend = true ↔ b.key.blend_mode ≠ BlendMode.None) ∧
        (b.key.blend_mode ≠ BlendMode.None →
          sr.state.blend_func = firstDrawFunc b.key.blend_mode))
        alphaRecs alphaBatches := by
  obtain ⟨st', prev', recs, hloop, hdt, hdw, hfa⟩ :=
    alphaLoop_spec alphaBatches
      { st0 with blend := false, depth_test := true, depth_write := false }
      BlendMode.None hvalid (fun _ => rfl) (fun hc => absurd rfl hc)
  refine ⟨{ st' with depth_test := false, blend := false }, recs, ?_, ?_⟩
  · simp only [drawColorTargetBatches, if_neg hne, if_true, hloop]
  · refine hfa.imp ?_
    intro sr b hp
    obtain ⟨hk, ha, hb, hc, hd⟩ := hp
    exact ⟨hk, ha, hb, hc, hd⟩

/-- C4 witness: one opaque and one premultiplied-alpha batch. -/
theorem color_target_batch_submission_order_witness :
    (∀ b ∈ [(⟨⟨BatchKind.Blend, BlendMode.PremultipliedAlpha, 0⟩, [0]⟩ :
        PrimitiveBatch)], batchBlendValid b = true) ∧
    ¬(([(⟨⟨BatchKind.Blend, BlendMode.None, 0⟩, [0]⟩ :
        PrimitiveBatch)] : List PrimitiveBatch).isEmpty ∧
      ([(⟨⟨BatchKind.Blend, BlendMode.PremultipliedAlpha, 0⟩, [0]⟩ :
        PrimitiveBatch)] : List PrimitiveBatch).isEmpty) ∧
    ∃ st' alphaRecs,
      drawColorTargetBatches ⟨false, none, false, false⟩ true
          [⟨⟨BatchKind.Blend, BlendMode.None, 0⟩, [0]⟩]
          [⟨⟨BatchKind.Blend, BlendMode.PremultipliedAlpha, 0⟩, [0]⟩] =
        some (st',
          ([(⟨⟨BatchKind.Blend, BlendMode.None, 0⟩, [0]⟩ :
            PrimitiveBatch)] : List PrimitiveBatch).reverse.map
            (fun b => (⟨b.key, (⟨false, none, true, true⟩ : DeviceState)⟩ :
              SubmitRecord)) ++ alphaRecs) ∧
      List.Forall₂ (fun (sr : SubmitRecord) (b : PrimitiveBatch) =>
        sr.key = b.key ∧
        sr.state.depth_test = true ∧
        sr.state.depth_write = false ∧
        (sr.state.blend = true ↔ b.key.blend_mode ≠ BlendMode.None) ∧
        (b.key.blend_mode ≠ BlendMode.None →
          sr.state.blend_func = firstDrawFunc b.key.blend_mode))
        alphaRecs
        [⟨⟨BatchKind.Blend, BlendMode.PremultipliedAlpha, 0⟩, [0]⟩] :=
  ⟨by decide, by decide,
    color_target_batch_submission_order ⟨false, none, false, false⟩
      [⟨⟨BatchKind.Blend, BlendMode.None, 0⟩, [0]⟩]
      [⟨⟨BatchKind.Blend, BlendMode.PremultipliedAlpha, 0⟩, [0]⟩]
      (by decide) (by decide)⟩

/-- With the stubbed layer-count accessor, every pooled texture's
selector carries `num_layers = 0`, so the perfect-match phase of
`prepare_target_list` could only match a request with zero targets,
which the function rejects up front.  The perfect-only call is therefore
a no-op: pool and list come back unchanged and no texture is created. -/
theorem prepare_target_list_perfect_noop {Fmt : Type} [DecidableEq Fmt]
    (pool : List (TextureModel Fmt)) (list : RenderTargetListModel Fmt)
    (fid : Nat) :
    prepare_target_list pool list true fid = (pool, list, false) := by
  by_cases h0 : list.num_targets = 0
  · simp [prepare_target_list, h0]
  · have hidx : pool.findIdx? (fun texture => textureSelector texture ==
        (⟨list.max_size, list.num_targets, list.format⟩ :
          TargetSelector Fmt)) = none := by
      refine List.findIdx?_eq_none_iff.mpr ?_
      intro x hx
      simp only [beq_eq_false_iff_ne]
      intro hcontra
      have hnl := congrArg TargetSelector.num_layers hcontra
      simp only [textureSelector, get_render_target_layer_count] at hnl
      exact h0 hnl.symm
    simp [prepare_target_list, h0, hidx]

/-- C3 (code bug): the claimed pool round-trip fails on this port.
`Texture::get_render_target_layer_count()` (device.rs:202-204) is
hard-coded to 0, so the perfect-match phase never hands back any pooled
texture: a texture returned by `end_pass` with key `32x64`, 2 layers,
format 7 is not matched by the next frame's identical request; the
pool and the list come back unchanged and the request falls through to
the fallback path.  The texture's stored layer count really is 2; only
the accessor the selector reads is stubbed to 0. -/
theorem render_target_pool_perfect_match_dead :
    (∀ (pool : List (TextureModel Nat))
        (list : RenderTargetListModel Nat) (fid : Nat),
      prepare_target_list pool list true fid = (pool, list, false)) ∧
    prepare_target_list
        (end_pass (⟨none, some ⟨1, 32, 64, 2, 7⟩, [], [], []⟩ :
          SourceTextureResolver Nat) none none 1).render_target_pool
        ⟨(32, 64), 2, 7, none⟩ true 0 =
      ([⟨1, 32, 64, 2, 7⟩], ⟨(32, 64), 2, 7, none⟩, false) ∧
    (⟨1, 32, 64, 2, 7⟩ : TextureModel Nat).layers = 2 ∧
    get_render_target_layer_count
      (⟨1, 32, 64, 2, 7⟩ : TextureModel Nat) = 0 :=
  ⟨fun pool list fid => prepare_target_list_perfect_noop pool list fid,
    by decide, rfl, rfl⟩

/-! ### Lemmas about document publication -/

theorem set_getElem?_self {α : Type} :
    ∀ (l : List α) (i : Nat) (v : α), l[i]? = some v → l.set i v = l := by
  intro l
  induction l with
  | nil => intro i v h; simp at h
  | cons a l ih =>
    intro i v h
    cases i with
    | zero =>
      simp only [List.getElem?_cons_zero, Option.some.injEq] at h
      subst h
      rfl
    | succ n =>
      rw [List.getElem?_cons_succ] at h
      show a :: l.set n v = a :: l
      rw [ih n v h]

theorem mem_set_of_ne {α : Type} {x old : α} {l : List α} {i : Nat} {y : α}
    (hx : x ∈ l) (hold : l[i]? = some old) (hne : x ≠ old) :
    x ∈ l.set i y := by
  obtain ⟨j, hj, rfl⟩ := List.getElem_of_mem hx
  by_cases hij : i = j
  · subst hij
    rw [List.getElem?_eq_getElem hj] at hold
    simp only [Option.some.injEq] at hold
    exact absurd hold hne
  · have hmem : (l.set i y)[j]? = some l[j] := by
      rw [List.getElem?_set_ne hij, List.getElem?_eq_getElem hj]
    exact List.getElem?_mem hmem

theorem mem_set_self {α : Type} (l : List α) (i : Nat) (x : α)
    (h : i < l.length) : x ∈ l.set i x := by
  have hmem : (l.set i x)[i]? = some x := by
    rw [List.getElem?_set_self (by simpa using h)]
  exact List.getElem?_mem hmem

theorem map_fst_set {α β : Type} (l : List (α × β)) (i : Nat)
    (old : α × β) (h : l[i]? = some old) (d : β) :
    (l.set i (old.1, d)).map Prod.fst = l.map Prod.fst := by
  rw [List.map_set]
  apply set_getElem?_self
  rw [List.getElem?_map, h]
  rfl

theorem nodup_concat_of_not_mem {α : Type} {l : List α} {a : α}
    (h : l.Nodup) (ha : a ∉ l) : (l ++ [a]).Nodup := by
  rw [List.nodup_append]
  exact ⟨h, List.nodup_singleton a,
    fun x hx hxa => ha ((List.mem_singleton.mp hxa) ▸ hx)⟩

theorem publishDocument_nodup {F : Type}
    {a : List (Nat × RenderedDocument F)} {id : Nat}
    {doc : RenderedDocument F} (h : (a.map Prod.fst).Nodup) :
    (((publishDocument a id doc).1).map Prod.fst).Nodup := by
  cases hidx : a.findIdx? (fun p => p.1 == id) with
  | some pos =>
    cases hold : a[pos]? with
    | none => simp only [publishDocument, hidx, hold]; exact h
    | some old =>
      simp only [publishDocument, hidx, hold]
      rw [map_fst_set a pos old hold]
      exact h
  | none =>
    simp only [publishDocument, hidx]
    rw [List.map_append]
    refine nodup_concat_of_not_mem h ?_
    intro hid
    rw [List.mem_map] at hid
    obtain ⟨p, hp, hip⟩ := hid
    have hfalse := List.findIdx?_eq_none_iff.mp hidx p hp
    simp [hip] at hfalse

theorem publishDocument_mem {F : Type}
    (a : List (Nat × RenderedDocument F)) (id : Nat)
    (doc : RenderedDocument F) :
    (id, doc) ∈ (publishDocument a id doc).1 := by
  cases hidx : a.findIdx? (fun p => p.1 == id) with
  | some pos =>
    obtain ⟨-, old, hold, hpred⟩ := findIdx?_some_pred _ a 0 pos hidx
    rw [Nat.sub_zero] at hold
    have hid : old.1 = id := by simpa using hpred
    simp only [publishDocument, hidx, hold]
    rw [hid]
    refine mem_set_self a pos (id, doc) ?_
    by_contra hge
    rw [List.getElem?_eq_none (by omega)] at hold
    exact Option.noConfusion hold
  | none =>
    simp only [publishDocument, hidx]
    exact List.mem_append_right _ (List.mem_singleton.mpr rfl)

theorem publishDocument_mem_preserved {F : Type}
    {a : List (Nat × RenderedDocument F)} {p : Nat}
    {d : RenderedDocument F} (hmem : (p, d) ∈ a) {id : Nat}
    {doc : RenderedDocument F} (hne : id ≠ p) :
    (p, d) ∈ (publishDocument a id doc).1 := by
  cases hidx : a.findIdx? (fun q => q.1 == id) with
  | some pos =>
    obtain ⟨-, old, hold, hpred⟩ := findIdx?_some_pred _ a 0 pos hidx
    rw [Nat.sub_zero] at hold
    have hid : old.1 = id := by simpa using hpred
    simp only [publishDocument, hidx, hold]
    refine mem_set_of_ne hmem hold ?_
    intro hcontra
    rw [← hcontra] at hid
    exact hne hid.symm
  | none =>
    simp only [publishDocument, hidx]
    exact List.mem_append_left _ hmem

theorem publishDocument_calls_offscreen {F : Type}
    (a : List (Nat × RenderedDocument F)) (id : Nat)
    (doc : RenderedDocument F) :
    ∀ c ∈ (publishDocument a id doc).2, c.framebuffer_size = none := by
  intro c hc
  cases hidx : a.findIdx? (fun p => p.1 == id) with
  | some pos =>
    cases hold : a[pos]? with
    | none => simp only [publishDocument, hidx, hold] at hc; simp at hc
    | some old =>
      simp only [publishDocument, hidx, hold] at hc
      by_cases hd : old.2.must_be_drawn = true
      · simp only [hd, if_true, List.mem_singleton] at hc
        subst hc
        rfl
      · simp only [hd, if_false] at hc
        simp at hc
  | none =>
    simp only [publishDocument, hidx] at hc
    simp at hc

theorem processPublish_mem_preserved {F : Type} :
    ∀ (msgs : List (Nat × RenderedDocument F))
      (a : List (Nat × RenderedDocument F)) (p : Nat)
      (d : RenderedDocument F), (p, d) ∈ a →
      (∀ m ∈ msgs, m.1 ≠ p) → (p, d) ∈ (processPublish msgs a).1 := by
  intro msgs
  induction msgs with
  | nil => intro a p d hmem _; exact hmem
  | cons m rest ih =>
    intro a p d hmem hkeys
    simp only [processPublish]
    exact ih _ p d
      (publishDocument_mem_preserved hmem (hkeys m (List.mem_cons_self _ _)))
      (fun m' hm' => hkeys m' (List.mem_cons_of_mem _ hm'))

/-- C5: draining the result channel applies `PublishDocument` messages
latest-wins per document: the active set keeps at most one entry per
document id, a newer publish for a pending document replaces it in place,
so the entry for a published id is the newest message published for it,
and any render issued while replacing a pending document passes no
framebuffer (never draws the stale frame to the visible framebuffer). -/
theorem publish_document_latest_wins {F : Type}
    (msgs : List (Nat × RenderedDocument F))
    (active : List (Nat × RenderedDocument F))
    (hnodup : (active.map Prod.fst).Nodup) :
    ((((processPublish msgs active).1).map Prod.fst).Nodup) ∧
    (∀ c ∈ (processPublish msgs active).2, c.framebuffer_size = none) ∧
    (∀ (p : Nat) (d : RenderedDocument F),
      (msgs.filter (fun m => m.1 == p)).getLast? = some (p, d) →
      (p, d) ∈ (processPublish msgs active).1) := by
  induction msgs generalizing active with
  | nil =>
    refine ⟨hnodup, ?_, ?_⟩
    · intro c hc
      simp [processPublish] at hc
    · intro p d h
      simp at h
  | cons m rest ih =>
    obtain ⟨m1, m2⟩ := m
    obtain ⟨ih1, ih2, ih3⟩ := ih (publishDocument active m1 m2).1
      (publishDocument_nodup hnodup)
    refine ⟨?_, ?_, ?_⟩
    · simp only [processPublish]
      exact ih1
    · intro c hc
      simp only [processPublish, List.mem_append] at hc
      rcases hc with hc | hc
      · exact publishDocument_calls_offscreen active m1 m2 c hc
      · exact ih2 c hc
    · intro p d hlast
      by_cases hm : ((m1, m2) : Nat × RenderedDocument F).1 == p
      · simp only [List.filter_cons, hm, if_true] at hlast
        cases hrest : rest.filter (fun m => m.1 == p) with
        | nil =>
          rw [hrest] at hlast
          simp only [List.getLast?_singleton, Option.some.injEq] at hlast
          have hp : m1 = p := by simpa using hm
          have hd : m2 = d := by
            have := congrArg Prod.snd hlast
            simpa using this
          subst hp
          subst hd
          simp only [processPublish]
          refine processPublish_mem_preserved rest _ m1 m2
            (publishDocument_mem active m1 m2) ?_
          intro m' hm'
          have hfalse := List.filter_eq_nil_iff.mp hrest m' hm'
          simpa using hfalse
        | cons x xs =>
          rw [hrest] at hlast
          rw [List.getLast?_cons_cons] at hlast
          simp only [processPublish]
          exact ih3 p d (by rw [hrest]; exact hlast)
      · simp only [List.filter_cons, hm, if_false] at hlast
        simp only [processPublish]
        exact ih3 p d hlast

/-! ### Lemmas for the depth-clear policy -/

theorem pairScan_iff :
    ∀ (rs : List DeviceUintRect), pairScan rs = true ↔
      ∃ i j, ∃ (hi : i < rs.length) (hj : j < rs.length), i < j ∧
        rectIntersects rs[i] rs[j] = true := by
  intro rs
  induction rs with
  | nil => simp [pairScan]
  | cons r rest ih =>
    simp only [pairScan, Bool.or_eq_true, List.any_eq_true, ih]
    constructor
    · rintro (⟨other, ho, hint⟩ | ⟨i, j, hi, hj, hij, hint⟩)
      · obtain ⟨k, hk, rfl⟩ := List.getElem_of_mem ho
        refine ⟨0, k + 1, by simp, by simp; omega, by omega, ?_⟩
        simpa using hint
      · refine ⟨i + 1, j + 1, by simp; omega, by simp; omega, by omega, ?_⟩
        simpa using hint
    · rintro ⟨i, j, hi, hj, hij, hint⟩
      cases i with
      | zero =>
        cases j with
        | zero => omega
        | succ jj =>
          left
          have hjj : jj < rest.length := by simp at hj; omega
          refine ⟨rest[jj], List.getElem_mem _, ?_⟩
          simpa using hint
      | succ ii =>
        cases j with
        | zero => omega
        | succ jj =>
          right
          refine ⟨ii, jj, by simp at hi; omega, by simp at hj; omega,
            by omega, ?_⟩
          simpa using hint

/-- C6: the shared depth buffer is cleared once for the whole frame
exactly when the depth-needing documents' main-framebuffer rects are
pairwise non-intersecting; the check is the pairwise
rectangle-intersection scan over the active documents; when any pair
intersects no whole-frame depth clear is issued and a document's
main-framebuffer draw clears depth only within its own (Y-flipped)
target rect. -/
theorem depth_clear_policy (docs : List DocDepthInfo)
    (r : DeviceUintRect) (sz : Nat × Nat) :
    (are_documents_intersecting_depth docs = true ↔
      (∃ i j, ∃ (hi : i < ((docs.filter (fun d => d.has_main_depth)).map
            (fun d => d.inner_rect)).length)
          (hj : j < ((docs.filter (fun d => d.has_main_depth)).map
            (fun d => d.inner_rect)).length), i < j ∧
        rectIntersects
          (((docs.filter (fun d => d.has_main_depth)).map
            (fun d => d.inner_rect))[i])
          (((docs.filter (fun d => d.has_main_depth)).map
            (fun d => d.inner_rect))[j]) = true)) ∧
    ((clearDepthValue docs).isSome = true ↔
      are_documents_intersecting_depth docs = false) ∧
    (are_documents_intersecting_depth docs = true →
      clearDepthValue docs = none ∧
      (mainTargetDepthClear false true r sz).1 = some 1 ∧
      (r ≠ ⟨0, 0, sz.1, sz.2⟩ →
        (mainTargetDepthClear false true r sz).2 =
          some ((r.origin_x : Int),
            (sz.2 : Int) - (r.origin_y : Int) - (r.height : Int),
            (r.width : Int), (r.height : Int))) ∧
      (r = ⟨0, 0, sz.1, sz.2⟩ →
        (mainTargetDepthClear false true r sz).2 = none)) := by
  refine ⟨?_, ?_, ?_⟩
  · simp only [are_documents_intersecting_depth]
    exact pairScan_iff _
  · by_cases h : are_documents_intersecting_depth docs = true
    · simp [clearDepthValue, h]
    · simp [clearDepthValue, h]
  · intro h
    refine ⟨by simp [clearDepthValue, h], by simp [mainTargetDepthClear],
      ?_, ?_⟩
    · intro hne
      simp [mainTargetDepthClear, hne]
    · intro heq
      simp [mainTargetDepthClear, heq]

/-- C6 witness: two depth-needing documents with overlapping rects. -/
theorem depth_clear_policy_witness :
    (are_documents_intersecting_depth
        [⟨⟨0, 0, 4, 4⟩, true⟩, ⟨⟨2, 2, 4, 4⟩, true⟩] = true ↔
      (∃ i j, ∃ (hi : i < ((([⟨⟨0, 0, 4, 4⟩, true⟩, ⟨⟨2, 2, 4, 4⟩, true⟩] :
            List DocDepthInfo).filter (fun d => d.has_main_depth)).map
            (fun d => d.inner_rect)).length)
          (hj : j < ((([⟨⟨0, 0, 4, 4⟩, true⟩, ⟨⟨2, 2, 4, 4⟩, true⟩] :
            List DocDepthInfo).filter (fun d => d.has_main_depth)).map
            (fun d => d.inner_rect)).length), i < j ∧
        rectIntersects
          (((([⟨⟨0, 0, 4, 4⟩, true⟩, ⟨⟨2, 2, 4, 4⟩, true⟩] :
            List DocDepthInfo).filter (fun d => d.has_main_depth)).map
            (fun d => d.inner_rect))[i])
          (((([⟨⟨0, 0, 4, 4⟩, true⟩, ⟨⟨2, 2, 4, 4⟩, true⟩] :
            List DocDepthInfo).filter (fun d => d.has_main_depth)).map
            (fun d => d.inner_rect))[j]) = true)) ∧
    ((clearDepthValue [⟨⟨0, 0, 4, 4⟩, true⟩, ⟨⟨2, 2, 4, 4⟩, true⟩]).isSome
        = true ↔
      are_documents_intersecting_depth
        [⟨⟨0, 0, 4, 4⟩, true⟩, ⟨⟨2, 2, 4, 4⟩, true⟩] = false) ∧
    (are_documents_intersecting_depth
        [⟨⟨0, 0, 4, 4⟩, true⟩, ⟨⟨2, 2, 4, 4⟩, true⟩] = true →
      clearDepthValue [⟨⟨0, 0, 4, 4⟩, true⟩, ⟨⟨2, 2, 4, 4⟩, true⟩] =
        none ∧
      (mainTargetDepthClear false true ⟨0, 0, 4, 4⟩ (8, 8)).1 = some 1 ∧
      ((⟨0, 0, 4, 4⟩ : DeviceUintRect) ≠ ⟨0, 0, 8, 8⟩ →
        (mainTargetDepthClear false true ⟨0, 0, 4, 4⟩ (8, 8)).2 =
          some (((⟨0, 0, 4, 4⟩ : DeviceUintRect).origin_x : Int),
            ((8 : Nat) : Int) -
              ((⟨0, 0, 4, 4⟩ : DeviceUintRect).origin_y : Int) -
              ((⟨0, 0, 4, 4⟩ : DeviceUintRect).height : Int),
            ((⟨0, 0, 4, 4⟩ : DeviceUintRect).width : Int),
            ((⟨0, 0, 4, 4⟩ : DeviceUintRect).height : Int))) ∧
      ((⟨0, 0, 4, 4⟩ : DeviceUintRect) = ⟨0, 0, 8, 8⟩ →
        (mainTargetDepthClear false true ⟨0, 0, 4, 4⟩ (8, 8)).2 = none)) :=
  depth_clear_policy [⟨⟨0, 0, 4, 4⟩, true⟩, ⟨⟨2, 2, 4, 4⟩, true⟩]
    ⟨0, 0, 4, 4⟩ (8, 8)

/-- C7: for a frame with active documents, `render` returns `Err`
carrying exactly the accumulated error list when it is non-empty at the
end of the frame and `Ok` otherwise; the error return drains the list,
so a subsequent frame with no new errors returns `Ok`. -/
theorem render_error_reporting (errs : List RendererErrorModel) :
    ((render_impl_errors false errs).1 = Except.error errs ↔ errs ≠ []) ∧
    (errs = [] → render_impl_errors false errs = (Except.ok (), [])) ∧
    (errs ≠ [] →
      render_impl_errors false errs = (Except.error errs, []) ∧
      render_impl_errors false (render_impl_errors false errs).2 =
        (Except.ok (), [])) := by
  by_cases h : errs = []
  · subst h
    exact ⟨by simp [render_impl_errors], fun _ => rfl,
      fun hc => absurd rfl hc⟩
  · have hne : errs.isEmpty = false := by
      simpa [List.isEmpty_iff] using h
    refine ⟨?_, fun hc => absurd hc h, fun _ => ⟨?_, ?_⟩⟩
    · simp [render_impl_errors, hne, h]
    · simp [render_impl_errors, hne]
    · simp [render_impl_errors, hne]

/-- C7 witness: one pending error is reported and drained. -/
theorem render_error_reporting_witness :
    ((render_impl_errors false [⟨3⟩]).1 = Except.error [⟨3⟩] ↔
      ([⟨3⟩] : List RendererErrorModel) ≠ []) ∧
    (([⟨3⟩] : List RendererErrorModel) = [] →
      render_impl_errors false [⟨3⟩] = (Except.ok (), [])) ∧
    (([⟨3⟩] : List RendererErrorModel) ≠ [] →
      render_impl_errors false [⟨3⟩] = (Except.error [⟨3⟩], []) ∧
      render_impl_errors false (render_impl_errors false [⟨3⟩]).2 =
        (Except.ok (), [])) :=
  render_error_reporting [⟨3⟩]

/-- C8: a frame with an empty pass list short-circuits
`draw_tile_frame`: it is marked rendered and no GPU work (no frame-data
bind, no pass) is issued; a frame with passes does bind frame data. -/
theorem empty_frame_short_circuit (frame : FrameModel) :
    (frame.passes.isEmpty = true →
      (draw_tile_frame frame).1.has_been_rendered = true ∧
      (draw_tile_frame frame).2 = []) ∧
    (frame.passes.isEmpty = false →
      (draw_tile_frame frame).1.has_been_rendered = true ∧
      GpuWork.bind_frame_data ∈ (draw_tile_frame frame).2) := by
  constructor
  · intro h
    simp [draw_tile_frame, h]
  · intro h
    simp [draw_tile_frame, h]

/-- C8 witness: the empty frame and a one-pass frame. -/
theorem empty_frame_short_circuit_witness :
    ((([] : List Nat).isEmpty = true →
      (draw_tile_frame ⟨[], false⟩).1.has_been_rendered = true ∧
      (draw_tile_frame ⟨[], false⟩).2 = []) ∧
    (([] : List Nat).isEmpty = false →
      (draw_tile_frame ⟨[], false⟩).1.has_been_rendered = true ∧
      GpuWork.bind_frame_data ∈ (draw_tile_frame ⟨[], false⟩).2)) ∧
    (([0] : List Nat).isEmpty = true →
      (draw_tile_frame ⟨[0], false⟩).1.has_been_rendered = true ∧
      (draw_tile_frame ⟨[0], false⟩).2 = []) ∧
    (([0] : List Nat).isEmpty = false →
      (draw_tile_frame ⟨[0], false⟩).1.has_been_rendered = true ∧
      GpuWork.bind_frame_data ∈ (draw_tile_frame ⟨[0], false⟩).2) :=
  ⟨empty_frame_short_circuit ⟨[], false⟩,
    empty_frame_short_circuit ⟨[0], false⟩⟩

/-- C9: `submit_batch` asserts (a panic, not a recoverable error) on a
composite batch unless it carries exactly one instance; under the
frame-builder precondition that composite batches have instance count 1
the failing branch is unreachable, and non-composite batch kinds never
trip the assertion. -/
theorem composite_batch_single_instance (t s b : Nat)
    (instances : List Nat) :
    (submit_batch_composite_guard (BatchKind.Composite t s b) instances =
        true ↔ instances.length = 1) ∧
    (instances.length = 1 →
      submit_batch_composite_guard (BatchKind.Composite t s b) instances =
        true) ∧
    (∀ kind : BatchKind,
      (∀ t' s' b', kind ≠ BatchKind.Composite t' s' b') →
      submit_batch_composite_guard kind instances = true) := by
  refine ⟨by simp [submit_batch_composite_guard], ?_, ?_⟩
  · intro h
    simp [submit_batch_composite_guard, h]
  · intro kind hk
    cases kind with
    | Composite a1 a2 a3 => exact absurd rfl (hk a1 a2 a3)
    | HardwareComposite => rfl
    | SplitComposite => rfl
    | Blend => rfl
    | Transformable tk k => rfl
    | Brush k => rfl

/-- C9 witness: a composite batch with one instance passes the guard. -/
theorem composite_batch_single_instance_witness :
    (submit_batch_composite_guard (BatchKind.Composite 1 2 3) [7] =
        true ↔ ([7] : List Nat).length = 1) ∧
    (([7] : List Nat).length = 1 →
      submit_batch_composite_guard (BatchKind.Composite 1 2 3) [7] =
        true) ∧
    (∀ kind : BatchKind,
      (∀ t' s' b', kind ≠ BatchKind.Composite t' s' b') →
      submit_batch_composite_guard kind [7] = true) :=
  composite_batch_single_instance 1 2 3 [7]

/-- C5 witness: two publishes for document 1; the second wins. -/
theorem publish_document_latest_wins_witness :
    (([] : List (Nat × RenderedDocument Nat)).map Prod.fst).Nodup ∧
    (((((processPublish [(1, ⟨10, true⟩), (1, ⟨20, false⟩)]
        ([] : List (Nat × RenderedDocument Nat))).1).map Prod.fst).Nodup) ∧
    (∀ c ∈ (processPublish [(1, ⟨10, true⟩), (1, ⟨20, false⟩)]
        ([] : List (Nat × RenderedDocument Nat))).2,
      c.framebuffer_size = none) ∧
    (∀ (p : Nat) (d : RenderedDocument Nat),
      (([(1, ⟨10, true⟩), (1, ⟨20, false⟩)] :
          List (Nat × RenderedDocument Nat)).filter
        (fun m => m.1 == p)).getLast? = some (p, d) →
      (p, d) ∈ (processPublish [(1, ⟨10, true⟩), (1, ⟨20, false⟩)]
        ([] : List (Nat × RenderedDocument Nat))).1)) :=
  ⟨by simp,
    publish_document_latest_wins [(1, ⟨10, true⟩), (1, ⟨20, false⟩)] []
      (by simp)⟩

end WR
